import Mathlib

/-!
Verification of the pylandax client (`src/pylandax.py`) against its
specification. Python dictionaries are modelled as association lists with
unique-key semantics (`alookup` / `ainsert` / `aerase` mirror `d[k]`,
`d[k] = v` and `del d[k]`), HTTP exchanges are modelled by passing the
server as a function from the request to the response, and exceptions by
`Except` / `Option` results.
-/

set_option autoImplicit false

namespace Pylandax

universe u v

/-! ## Association lists modelling Python dictionaries -/

/-- Model of `d[k]` as a total lookup: first entry with the given key. -/
def alookup {κ : Type u} {α : Type v} [DecidableEq κ] : List (κ × α) → κ → Option α
  | [], _ => none
  | p :: rest, k => if p.1 = k then some p.2 else alookup rest k

/-- Model of `k in d`. -/
def acontains {κ : Type u} {α : Type v} [DecidableEq κ] (l : List (κ × α)) (k : κ) : Bool :=
  (alookup l k).isSome

/-- Model of `d[k] = v`: replace the entry in place if the key is present,
otherwise append the new entry at the end (Python dict insertion order). -/
def ainsert {κ : Type u} {α : Type v} [DecidableEq κ] : List (κ × α) → κ → α → List (κ × α)
  | [], k, v => [(k, v)]
  | p :: rest, k, v => if p.1 = k then (k, v) :: rest else p :: ainsert rest k v

/-- Model of `del d[k]` (removes the entry with key `k`; on a dict there is
at most one). -/
def aerase {κ : Type u} {α : Type v} [DecidableEq κ] : List (κ × α) → κ → List (κ × α)
  | [], _ => []
  | p :: rest, k => if p.1 = k then aerase rest k else p :: aerase rest k

theorem alookup_ainsert_self {κ : Type u} {α : Type v} [DecidableEq κ]
    (l : List (κ × α)) (k : κ) (v : α) : alookup (ainsert l k v) k = some v := by
  induction l with
  | nil => simp [ainsert, alookup]
  | cons p rest ih =>
      by_cases h : p.1 = k
      · simp [ainsert, alookup, h]
      · simp [ainsert, alookup, h, ih]

theorem alookup_ainsert_ne {κ : Type u} {α : Type v} [DecidableEq κ]
    (l : List (κ × α)) (k k' : κ) (v : α) (hne : k' ≠ k) :
    alookup (ainsert l k v) k' = alookup l k' := by
  induction l with
  | nil => simp [ainsert, alookup, Ne.symm hne]
  | cons p rest ih =>
      by_cases h : p.1 = k
      · subst h
        simp [ainsert, alookup, Ne.symm hne]
      · by_cases h2 : p.1 = k'
        · simp [ainsert, alookup, h, h2, hne, Ne.symm hne]
        · simp [ainsert, alookup, h, h2, ih]

theorem alookup_aerase_self {κ : Type u} {α : Type v} [DecidableEq κ]
    (l : List (κ × α)) (k : κ) : alookup (aerase l k) k = none := by
  induction l with
  | nil => simp [aerase, alookup]
  | cons p rest ih =>
      by_cases h : p.1 = k
      · simp [aerase, h, ih]
      · simp [aerase, alookup, h, ih]

theorem alookup_aerase_ne {κ : Type u} {α : Type v} [DecidableEq κ]
    (l : List (κ × α)) (k k' : κ) (hne : k' ≠ k) :
    alookup (aerase l k) k' = alookup l k' := by
  induction l with
  | nil => simp [aerase]
  | cons p rest ih =>
      by_cases h : p.1 = k
      · subst h
        simp [aerase, alookup, Ne.symm hne, ih]
      · simp [aerase, alookup, h, ih]

theorem aerase_self_of_absent {κ : Type u} {α : Type v} [DecidableEq κ]
    (l : List (κ × α)) (k : κ) (h : alookup l k = none) : aerase l k = l := by
  induction l with
  | nil => simp [aerase]
  | cons p rest ih =>
      by_cases hk : p.1 = k
      · simp [alookup, hk] at h
      · simp [alookup, hk] at h
        simp [aerase, hk, ih h]

theorem aerase_idem {κ : Type u} {α : Type v} [DecidableEq κ]
    (l : List (κ × α)) (k : κ) : aerase (aerase l k) k = aerase l k :=
  aerase_self_of_absent _ _ (alookup_aerase_self l k)

theorem aerase_comm {κ : Type u} {α : Type v} [DecidableEq κ]
    (l : List (κ × α)) (k k' : κ) :
    aerase (aerase l k) k' = aerase (aerase l k') k := by
  induction l with
  | nil => simp [aerase]
  | cons p rest ih =>
      by_cases h : p.1 = k
      · by_cases h2 : p.1 = k'
        · have hkk : k = k' := by rw [← h, h2]
          simp [aerase, h, h2, hkk, ih]
        · have hkk : ¬k = k' := fun e => h2 (h.trans e)
          simp [aerase, h, h2, hkk, ih]
      · by_cases h2 : p.1 = k'
        · have hkk : ¬k' = k := fun e => h (h2.trans e)
          simp [aerase, h, h2, hkk, ih]
        · simp [aerase, h, h2, ih]

/-! ## URL generation (`Client.generate_url`) -/

/-- Model of `urllib.parse.urlencode`: percent-encoding of individual
characters is abstracted away; the key-value structure and ordering of the
query string are kept. -/
def urlencode (htmlParams : List (String × String)) : String :=
  String.intercalate "&" (htmlParams.map (fun p => p.1 ++ "=" ++ p.2))

/-- `Client.generate_url`: appends URL-encoded query parameters if any are
present, else returns the base unchanged. -/
def generate_url (baseUrl : String) (htmlParams : List (String × String)) : String :=
  if htmlParams.length = 0 then baseUrl
  else baseUrl ++ "?" ++ urlencode htmlParams

/-! ## Pagination (`Client.get_all_data`)

A paged response body, as parsed from JSON: its `value` array and the
optional `@odata.nextLink` field. The record type is abstract (`α`): the
client does not inspect individual records. The HTTP server is modelled as
a function from the request URL to the parsed response body. -/

structure Page (α : Type u) where
  value : List α
  nextLink : Option String

/-- The `while '@odata.nextLink' in response.json()` loop of
`Client.get_all_data`: `data` is the accumulated record list, `resp` the
last response. `fuel` bounds the number of link follows; `none` models a
chain of next links longer than the fuel (the Python loop would still be
running). -/
def get_all_data_loop {α : Type u} (server : String → Page α)
    (fuel : Nat) (data : List α) (resp : Page α) : Option (List α) :=
  match resp.nextLink with
  | none => some data
  | some newUrl =>
    match fuel with
    | 0 => none
    | f + 1 => get_all_data_loop server f (data ++ (server newUrl).value) (server newUrl)

/-- Core of `Client.get_all_data` after parameter processing: issue the
initial request, then follow next links. -/
def get_all_data {α : Type u} (server : String → Page α) (fuel : Nat) (url : String) :
    Option (List α) :=
  get_all_data_loop server fuel (server url).value (server url)

/-- The parameter preprocessing of `Client.get_all_data`: `del params['$top']`
and `del params['$skip']` when present (each with a printed warning), then
`params['$select'] = ','.join(select)` when a select list is given. This is
also the final state of the caller-supplied `params` dict, which the method
mutates in place. -/
def get_all_data_params (params : List (String × String)) (select : Option (List String)) :
    List (String × String) :=
  let params1 := aerase params "$top"
  let params2 := aerase params1 "$skip"
  match select with
  | none => params2
  | some sel => ainsert params2 "$select" (String.intercalate "," sel)

/-- `Client.get_all_data` in full: parameter preprocessing, URL generation
from `api_url` and the data model, then the pagination loop. -/
def get_all_data_full {α : Type u} (server : String → Page α) (fuel : Nat)
    (apiUrl dataModel : String) (params : List (String × String))
    (select : Option (List String)) : Option (List α) :=
  get_all_data server fuel
    (generate_url (apiUrl ++ dataModel) (get_all_data_params params select))

/-- `IsPageChain server url pages`: starting from `url`, the server serves
exactly the sequence `pages`, each page's `@odata.nextLink` pointing at the
next, and only the last page lacking a next link. This is the "sequence of
server pages" a run of `get_all_data` observes. -/
inductive IsPageChain {α : Type u} (server : String → Page α) : String → List (Page α) → Prop
  | last (url : String) (p : Page α) :
      server url = p → p.nextLink = none → IsPageChain server url [p]
  | step (url : String) (p : Page α) (next : String) (ps : List (Page α)) :
      server url = p → p.nextLink = some next → IsPageChain server next ps →
      IsPageChain server url (p :: ps)

theorem IsPageChain.ne_nil {α : Type u} {server : String → Page α} {url : String}
    {pages : List (Page α)} (h : IsPageChain server url pages) : pages ≠ [] := by
  cases h <;> simp

theorem get_all_data_loop_of_none {α : Type u} (server : String → Page α)
    (fuel : Nat) (data : List α) (resp : Page α) (h : resp.nextLink = none) :
    get_all_data_loop server fuel data resp = some data := by
  rw [get_all_data_loop.eq_def, h]

theorem get_all_data_loop_of_some {α : Type u} (server : String → Page α)
    (f : Nat) (data : List α) (resp : Page α) (newUrl : String)
    (h : resp.nextLink = some newUrl) :
    get_all_data_loop server (f + 1) data resp
      = get_all_data_loop server f (data ++ (server newUrl).value) (server newUrl) := by
  rw [get_all_data_loop.eq_def, h]

theorem get_all_data_loop_chain {α : Type u} (server : String → Page α)
    {url : String} {pages : List (Page α)} (h : IsPageChain server url pages) :
    ∀ (fuel : Nat), pages.length ≤ fuel + 1 → ∀ (acc : List α),
      get_all_data_loop server fuel (acc ++ (server url).value) (server url)
        = some (acc ++ (pages.map Page.value).flatten) := by
  induction h with
  | last url p hsrv hnone =>
      intro fuel _ acc
      rw [hsrv, get_all_data_loop_of_none server fuel _ p hnone]
      simp
  | step url p next ps hsrv hlink hchain ih =>
      intro fuel hfuel acc
      have hps : ps ≠ [] := hchain.ne_nil
      have hlen : 1 ≤ ps.length := by
        cases ps with
        | nil => exact absurd rfl hps
        | cons q qs => simp
      cases fuel with
      | zero =>
          exfalso
          simp only [List.length_cons] at hfuel
          omega
      | succ f =>
          rw [hsrv, get_all_data_loop_of_some server f _ p next hlink]
          have hf : ps.length ≤ f + 1 := by
            simp only [List.length_cons] at hfuel
            omega
          rw [ih f hf (acc ++ p.value)]
          simp [List.append_assoc]

/-! ## Single-record fetch (`Client.get_single_data`) -/

/-- An HTTP response whose body parses as JSON of shape `β`. -/
structure JsonResponse (β : Type u) where
  status : Nat
  body : β

/-- The request URL of `Client.get_single_data`:
`f'{self.api_url}{data_model}({str(data_id)})'` plus query parameters. -/
def single_data_url (apiUrl dataModel : String) (dataId : Int)
    (params : List (String × String)) : String :=
  generate_url (apiUrl ++ dataModel ++ "(" ++ toString dataId ++ ")") params

/-- `Client.get_single_data`: GET the record URL; `None` on a 404, the
parsed JSON body otherwise. -/
def get_single_data {β : Type u} (server : String → JsonResponse β)
    (apiUrl dataModel : String) (dataId : Int) (params : List (String × String)) :
    Option β :=
  let response := server (single_data_url apiUrl dataModel dataId params)
  if response.status = 404 then none
  else some response.body

/-! ## Document content (`Client.get_document_content`) -/

/-- A raw HTTP response: status code, `content` (bytes) and `text`. -/
structure RawResponse where
  status : Nat
  content : List Nat
  text : String

/-- The request URL of `Client.get_document_content`, with
`original=False` requesting server-side PDF conversion. -/
def get_content_url (apiUrl : String) (documentId : Int) (asPdf : Bool) : String :=
  let originalArg := if asPdf then "False" else "True"
  apiUrl ++ "Documents/GetContent?documentid=" ++ toString documentId
    ++ "&original=" ++ originalArg ++ "&encode=raw"

/-- `Client.get_document_content`: raises `LandaxDataException` (modelled
as `Except.error` carrying the exception message) when the status is not
200, and returns a buffer of the response content otherwise. -/
def get_document_content (server : String → RawResponse) (apiUrl : String)
    (documentId : Int) (asPdf : Bool) : Except String (List Nat) :=
  let url := get_content_url apiUrl documentId asPdf
  let response := server url
  if response.status ≠ 200 then
    Except.error ("Error in GET " ++ url ++ ". Expected status code: 200. Received status code: "
      ++ toString response.status ++ ".Response body: " ++ response.text)
  else
    Except.ok response.content

/-! ## OAuth token and client construction (`Client.get_oauth_token`,
`Client.__init__`) -/

/-- The token endpoint's response: status plus the parsed JSON object of
the body (string fields). -/
structure TokenResponse where
  status : Nat
  body : List (String × String)
  text : String

/-- `Client.get_oauth_token` applied to the token endpoint's response:
raises `LandaxAuthException` (modelled as `Except.error` with the message)
unless the status is 200 and the body has an `access_token` field, in
which case it returns that field. -/
def get_oauth_token (result : TokenResponse) : Except String String :=
  if result.status ≠ 200 then
    Except.error ("Landax returned non-200 response when getting OAuth token. Body: " ++ result.text)
  else
    match alookup result.body "access_token" with
    | none => Except.error ("Landax response was non-json. Body: " ++ result.text)
    | some tok => Except.ok tok

/-- The credential fields `Client.__init__` requires. -/
def required_credentials : List String :=
  ["username", "password", "client_id", "client_secret"]

/-- The JSON body `get_oauth_token` posts to `authenticate/token`. -/
def oauth_post_body (credentials : List (String × String)) : List (String × String) :=
  [("client_id", (alookup credentials "client_id").getD ""),
   ("client_secret", (alookup credentials "client_secret").getD ""),
   ("username", (alookup credentials "username").getD ""),
   ("password", (alookup credentials "password").getD "")]

/-- The state a fully constructed `Client` holds. -/
structure ClientState where
  username : String
  password : String
  client_id : String
  client_secret : String
  base_url : String
  api_url : String
  headers : List (String × String)
  oauth_token : String

/-- The observable outcome of `Client.__init__`: an early `return` after
logging a missing credential field, a propagated `LandaxAuthException`, or
a ready client. -/
inductive InitOutcome
  | missingCredential (key : String)
  | authError (msg : String)
  | ready (state : ClientState)

/-- `Client.__init__`: checks the four required credential fields in order
and returns (only logging) at the first missing one; otherwise builds the
URLs, requests an OAuth token (the token endpoint is the `authServer`
argument) and sets the `Authorization` header from the token. -/
def client_init (url : String) (credentials : List (String × String)) (version : String)
    (authServer : List (String × String) → TokenResponse) : InitOutcome :=
  match required_credentials.find? (fun k => !acontains credentials k) with
  | some k => InitOutcome.missingCredential k
  | none =>
    let base_url := "https://" ++ url ++ "/"
    let api_url := base_url ++ "api/" ++ version ++ "/"
    match get_oauth_token (authServer (oauth_post_body credentials)) with
    | Except.error e => InitOutcome.authError e
    | Except.ok tok =>
        InitOutcome.ready
          { username := (alookup credentials "username").getD ""
            password := (alookup credentials "password").getD ""
            client_id := (alookup credentials "client_id").getD ""
            client_secret := (alookup credentials "client_secret").getD ""
            base_url := base_url
            api_url := api_url
            headers := ainsert [] "Authorization" ("Bearer " ++ tok)
            oauth_token := tok }

/-! ## Document upload (`Client.upload_document`,
`Client.upload_document_from_file`, `Client.upload_linked_document`,
`Client.documents_createdocument`) -/

/-- A dynamically typed Python/JSON value, as far as the client's document
dictionaries need: strings, integers and nested dicts. -/
inductive JVal
  | str (s : String)
  | num (n : Int)
  | obj (fields : List (String × JVal))

/-- The multipart request `Client.documents_createdocument` posts to
`Documents/CreateDocument`: the `fileData` part (name and bytes of type
`β`), the JSON-encoded `document` part, and the optional JSON-encoded
`documentLink` part. -/
structure CreateDocumentRequest (β : Type u) where
  filename : String
  filedata : β
  document : List (String × JVal)
  documentLink : Option (List (String × JVal))

/-- `Client.documents_createdocument`, modelled up to the request it
builds; the HTTP post itself is applied by the caller's server function. -/
def documents_createdocument {β : Type u} (filedata : β) (filename : String)
    (document_object : List (String × JVal))
    (document_link : Option (List (String × JVal))) : CreateDocumentRequest β :=
  { filename := filename
    filedata := filedata
    document := document_object
    documentLink := document_link }

/-- `Client.upload_document`: warns on a caller-supplied `FolderId` (kept),
warns on and deletes a caller-supplied `ModuleId`, injects
`document_options['FolderId'] = folder_id`, and builds the create-document
request. `folderId` is `JVal`-typed because Python does not enforce the
`int` annotation. -/
def upload_document {β : Type u} (filedata : β) (filename : String) (folderId : JVal)
    (document_options : Option (List (String × JVal))) : CreateDocumentRequest β :=
  let opts0 := document_options.getD []
  let opts1 := aerase opts0 "ModuleId"
  let opts2 := ainsert opts1 "FolderId" folderId
  documents_createdocument filedata filename opts2 none

/-- The Python-level argument of `Client.upload_document_from_file`:
either not a `pathlib.Path` at all, or a path with an existence flag, a
file name and the file's byte content. -/
inductive FileArg (β : Type u)
  | notPath
  | path (onDisk : Bool) (name : String) (content : β)

/-- The exceptions `Client.upload_document_from_file` raises. -/
inductive PyError
  | typeError (msg : String)
  | fileNotFound (msg : String)

/-- `Client.upload_document_from_file`: `TypeError` for a non-`Path`
argument, `FileNotFoundError` for a missing file, else reads the bytes and
calls `self.upload_document(document_bytes, file.name, document_object)` —
three positional arguments, so `document_object` lands in the `folder_id`
parameter of `upload_document` and `document_options` defaults to `None`. -/
def upload_document_from_file {β : Type u} (file : FileArg β)
    (document_object : Option (List (String × JVal))) :
    Except PyError (CreateDocumentRequest β) :=
  let docObj := document_object.getD []
  match file with
  | FileArg.notPath => Except.error (PyError.typeError "file must be a pathlib.Path")
  | FileArg.path onDisk name content =>
    if onDisk then
      Except.ok (upload_document content name (JVal.obj docObj) none)
    else
      Except.error (PyError.fileNotFound ("file does not exist: " ++ name))

/-- The hardcoded module-id-to-foreign-key-field table of
`Client.upload_linked_document`. -/
def id_key_mapping : List (Nat × String) :=
  [(6, "IncidentId"), (10, "CoworkerId"), (24, "EquipmentId")]

/-- `Client.upload_linked_document`: resolves `module_name` through the
`modules.json` table (passed in as `modules`, since the bundled file is
external data) and the module id through `id_key_mapping`; on either miss
it logs an error and returns `None` without building or posting a request.
Otherwise it sets `ModuleId` in the options, builds the document link
(foreign key, then `FolderId` when given) and posts the multipart request;
the response is returned whatever its status (a non-200 is only logged). -/
def upload_linked_document {β : Type u} (modules : List (String × Nat))
    (postServer : CreateDocumentRequest β → RawResponse)
    (filedata : β) (filename : String) (folder_id : Option Int)
    (module_name : String) (linked_object_id : Int)
    (document_options : Option (List (String × JVal))) : Option RawResponse :=
  let docOpts := document_options.getD []
  match alookup modules module_name with
  | none => none
  | some module_id =>
    match alookup id_key_mapping module_id with
    | none => none
    | some object_id_key =>
      let docOpts2 := ainsert docOpts "ModuleId" (JVal.num (Int.ofNat module_id))
      let document_link := [(object_id_key, JVal.num linked_object_id)]
      let document_link2 :=
        match folder_id with
        | none => document_link
        | some f => ainsert document_link "FolderId" (JVal.num f)
      some (postServer (documents_createdocument filedata filename docOpts2 (some document_link2)))

/-! ## `Client.list_to_dict` -/

/-- The loop of `Client.list_to_dict`: `return_dict[record[metakey]] = record`
for each record, warning (only) when the key is already present. A record
lacking `metakey` makes `record[metakey]` raise `KeyError`, modelled as
`none`. Records are dicts with values of type `μ`. -/
def list_to_dict_go {μ : Type u} [DecidableEq μ]
    (metakey : String) : List (μ × List (String × μ)) → List (List (String × μ)) →
    Option (List (μ × List (String × μ)))
  | return_dict, [] => some return_dict
  | return_dict, record :: rest =>
    match alookup record metakey with
    | none => none
    | some key => list_to_dict_go metakey (ainsert return_dict key record) rest

/-- `Client.list_to_dict`: builds the dict from an empty one. -/
def list_to_dict {μ : Type u} [DecidableEq μ] (list_in : List (List (String × μ)))
    (metakey : String) : Option (List (μ × List (String × μ))) :=
  list_to_dict_go metakey [] list_in

/-- The record of the last occurrence, among `list_in`, of a record whose
`metakey` field equals `k`. -/
def lastWithKey {μ : Type u} [DecidableEq μ] (list_in : List (List (String × μ)))
    (metakey : String) (k : μ) : Option (List (String × μ)) :=
  (list_in.filter (fun record => decide (alookup record metakey = some k))).getLast?

/-! ## Claim theorems -/

/-- C1: for every sequence of server pages (a next-link chain from the
initial URL), `get_all_data` returns the concatenation of each page's
`value` array in server-provided order, stopping exactly when no
`@odata.nextLink` key is present, and the length of the returned list is
the sum of the lengths of the pages' `value` arrays. -/
theorem get_all_data_concats_pages {α : Type u} (server : String → Page α)
    (url : String) (pages : List (Page α)) (h : IsPageChain server url pages)
    (fuel : Nat) (hfuel : pages.length ≤ fuel + 1) :
    get_all_data server fuel url = some (pages.map Page.value).flatten
    ∧ (pages.map Page.value).flatten.length
        = (pages.map (fun p => p.value.length)).sum := by
  constructor
  · have hloop := get_all_data_loop_chain server h fuel hfuel []
    simpa [get_all_data] using hloop
  · rw [List.length_flatten, List.map_map]
    rfl

/-- Witness for C1: a concrete two-page chain. -/
def twoPageServer : String → Page Nat :=
  fun u =>
    if u = "start" then { value := [1, 2], nextLink := some "next" }
    else { value := [3], nextLink := none }

theorem get_all_data_concats_pages_witness :
    get_all_data twoPageServer 1 "start" = some [1, 2, 3]
    ∧ ([1, 2, 3] : List Nat).length = [1, 2].length + [3].length := by
  have hchain : IsPageChain twoPageServer "start"
      [{ value := [1, 2], nextLink := some "next" }, { value := [3], nextLink := none }] := by
    refine IsPageChain.step "start" _ "next" _ ?_ rfl ?_
    · rfl
    · exact IsPageChain.last "next" _ rfl rfl
  have hmain := get_all_data_concats_pages twoPageServer "start" _ hchain 1 (by decide)
  refine ⟨?_, by decide⟩
  simpa using hmain.1

/-- C2: `get_single_data` returns `None` when the server responds 404 (and
does not raise), and the parsed JSON body on any other status. -/
theorem get_single_data_404_none {β : Type u} (server : String → JsonResponse β)
    (apiUrl dataModel : String) (dataId : Int) (params : List (String × String)) :
    ((server (single_data_url apiUrl dataModel dataId params)).status = 404 →
      get_single_data server apiUrl dataModel dataId params = none)
    ∧ ((server (single_data_url apiUrl dataModel dataId params)).status ≠ 404 →
      get_single_data server apiUrl dataModel dataId params
        = some (server (single_data_url apiUrl dataModel dataId params)).body) := by
  constructor <;> intro h <;> simp [get_single_data, h]

theorem get_single_data_404_none_witness :
    get_single_data (fun _ => ({ status := 404, body := 0 } : JsonResponse Nat))
      "https://x/api/v20/" "Contacts" 5 [] = none
    ∧ get_single_data (fun _ => ({ status := 200, body := 7 } : JsonResponse Nat))
      "https://x/api/v20/" "Contacts" 5 [] = some 7 :=
  ⟨(get_single_data_404_none (fun _ => ({ status := 404, body := 0 } : JsonResponse Nat))
      "https://x/api/v20/" "Contacts" 5 []).1 rfl,
   (get_single_data_404_none (fun _ => ({ status := 200, body := 7 } : JsonResponse Nat))
      "https://x/api/v20/" "Contacts" 5 []).2 (by decide)⟩

theorem get_all_data_params_strip (params : List (String × String))
    (select : Option (List String)) :
    get_all_data_params (aerase (aerase params "$top") "$skip") select
      = get_all_data_params params select := by
  cases select with
  | none =>
      show aerase (aerase (aerase (aerase params "$top") "$skip") "$top") "$skip"
        = aerase (aerase params "$top") "$skip"
      rw [aerase_comm (aerase params "$top") "$skip" "$top", aerase_idem, aerase_idem]
  | some sel =>
      show ainsert (aerase (aerase (aerase (aerase params "$top") "$skip") "$top") "$skip")
          "$select" (String.intercalate "," sel)
        = ainsert (aerase (aerase params "$top") "$skip") "$select" (String.intercalate "," sel)
      rw [aerase_comm (aerase params "$top") "$skip" "$top", aerase_idem, aerase_idem]

/-- C3: `get_all_data` with `$top` and/or `$skip` in `params` returns
exactly the output of the same call with those entries absent — both keys
are stripped before any request is issued. -/
theorem get_all_data_ignores_top_skip {α : Type u} (server : String → Page α) (fuel : Nat)
    (apiUrl dataModel : String) (params : List (String × String))
    (select : Option (List String)) :
    get_all_data_full server fuel apiUrl dataModel params select
      = get_all_data_full server fuel apiUrl dataModel
          (aerase (aerase params "$top") "$skip") select := by
  unfold get_all_data_full
  rw [get_all_data_params_strip]

/-- C10: `get_all_data` leaves the caller's `params` dict in the state
`get_all_data_params` describes: `$top` and `$skip` entries are deleted, a
`$select` entry is added when a select list is given, and there are inputs
on which the resulting dict differs from the one passed in. -/
theorem get_all_data_params_mutation :
    (∀ (params : List (String × String)) (select : Option (List String)),
        alookup (get_all_data_params params select) "$top" = none
        ∧ alookup (get_all_data_params params select) "$skip" = none)
    ∧ (∀ (params : List (String × String)) (sel : List String),
        alookup (get_all_data_params params (some sel)) "$select"
          = some (String.intercalate "," sel))
    ∧ ∃ (params : List (String × String)) (select : Option (List String)),
        get_all_data_params params select ≠ params := by
  refine ⟨?_, ?_, ?_⟩
  · intro params select
    cases select with
    | none =>
        refine ⟨?_, ?_⟩
        · rw [show get_all_data_params params none
              = aerase (aerase params "$top") "$skip" from rfl]
          rw [alookup_aerase_ne _ "$skip" "$top" (by decide)]
          exact alookup_aerase_self _ _
        · exact alookup_aerase_self _ _
    | some sel =>
        refine ⟨?_, ?_⟩
        · rw [show get_all_data_params params (some sel)
              = ainsert (aerase (aerase params "$top") "$skip") "$select"
                  (String.intercalate "," sel) from rfl]
          rw [alookup_ainsert_ne _ "$select" "$top" _ (by decide)]
          rw [alookup_aerase_ne _ "$skip" "$top" (by decide)]
          exact alookup_aerase_self _ _
        · rw [show get_all_data_params params (some sel)
              = ainsert (aerase (aerase params "$top") "$skip") "$select"
                  (String.intercalate "," sel) from rfl]
          rw [alookup_ainsert_ne _ "$select" "$skip" _ (by decide)]
          exact alookup_aerase_self _ _
  · intro params sel
    exact alookup_ainsert_self _ _ _
  · exact ⟨[("$top", "1")], none, by decide⟩

/-- C4: `upload_linked_document` with a module name absent from the module
table, or whose id has no entry in `id_key_mapping`, returns `None`; the
result holds for every posting server, so no network call is observable. -/
theorem upload_linked_document_unknown_module_none {β : Type u}
    (modules : List (String × Nat)) (module_name : String)
    (h : alookup modules module_name = none
      ∨ ∃ mid, alookup modules module_name = some mid
          ∧ alookup id_key_mapping mid = none) :
    ∀ (postServer : CreateDocumentRequest β → RawResponse) (filedata : β)
      (filename : String) (folder_id : Option Int) (linked_object_id : Int)
      (document_options : Option (List (String × JVal))),
      upload_linked_document modules postServer filedata filename folder_id module_name
        linked_object_id document_options = none := by
  intro postServer filedata filename folder_id linked_object_id document_options
  rcases h with h | ⟨mid, hmid, hkey⟩
  · simp [upload_linked_document, h]
  · simp [upload_linked_document, hmid, hkey]

theorem upload_linked_document_unknown_module_none_witness :
    upload_linked_document [("Incidents", 6)] (fun _ => { status := 200, content := [], text := "" })
      (0 : Nat) "f.txt" none "Bogus" 1 none = none
    ∧ upload_linked_document [("Projects", 3)] (fun _ => { status := 200, content := [], text := "" })
      (0 : Nat) "f.txt" none "Projects" 1 none = none :=
  ⟨upload_linked_document_unknown_module_none [("Incidents", 6)] "Bogus"
      (Or.inl (by decide)) _ 0 "f.txt" none 1 none,
   upload_linked_document_unknown_module_none [("Projects", 3)] "Projects"
      (Or.inr ⟨3, by decide, by decide⟩) _ 0 "f.txt" none 1 none⟩

/-- C5: `get_document_content` raises `LandaxDataException` if and only if
the response status is not 200, and returns the content bytes on a 200; in
particular a 202 (PDF conversion in progress) raises. -/
theorem get_document_content_raises_iff_non_200 (server : String → RawResponse)
    (apiUrl : String) (documentId : Int) (asPdf : Bool) :
    ((∃ e, get_document_content server apiUrl documentId asPdf = Except.error e)
      ↔ (server (get_content_url apiUrl documentId asPdf)).status ≠ 200)
    ∧ ((server (get_content_url apiUrl documentId asPdf)).status = 200 →
        get_document_content server apiUrl documentId asPdf
          = Except.ok (server (get_content_url apiUrl documentId asPdf)).content) := by
  constructor
  · constructor
    · rintro ⟨e, he⟩ h200
      simp [get_document_content, h200] at he
    · intro h
      simp [get_document_content, h]
  · intro h
    simp [get_document_content, h]

theorem get_document_content_raises_iff_non_200_witness :
    (∃ e, get_document_content (fun _ => { status := 202, content := [], text := "processing" })
        "https://x/api/v20/" 42 true = Except.error e)
    ∧ get_document_content (fun _ => { status := 200, content := [1, 2], text := "" })
        "https://x/api/v20/" 42 false = Except.ok [1, 2] :=
  ⟨(get_document_content_raises_iff_non_200
      (fun _ => { status := 202, content := [], text := "processing" })
      "https://x/api/v20/" 42 true).1.mpr (by decide),
   (get_document_content_raises_iff_non_200
      (fun _ => { status := 200, content := [1, 2], text := "" })
      "https://x/api/v20/" 42 false).2 rfl⟩

/-- C6: `get_oauth_token` raises `LandaxAuthException` iff the token
endpoint's status is not 200 or its body lacks an `access_token` field,
returns the token otherwise; and a constructed client stores that token
and carries the default header `Authorization: Bearer <token>`. -/
theorem get_oauth_token_iff_spec :
    (∀ result : TokenResponse,
      ((∃ e, get_oauth_token result = Except.error e)
        ↔ (result.status ≠ 200 ∨ alookup result.body "access_token" = none))
      ∧ (∀ tok, result.status = 200 → alookup result.body "access_token" = some tok →
          get_oauth_token result = Except.ok tok))
    ∧ (∀ (url : String) (credentials : List (String × String)) (version : String)
        (authServer : List (String × String) → TokenResponse) (state : ClientState),
        client_init url credentials version authServer = InitOutcome.ready state →
        get_oauth_token (authServer (oauth_post_body credentials))
            = Except.ok state.oauth_token
        ∧ alookup state.headers "Authorization" = some ("Bearer " ++ state.oauth_token)) := by
  constructor
  · intro result
    constructor
    · by_cases h : result.status = 200
      · cases hl : alookup result.body "access_token" with
        | none =>
            constructor
            · intro _
              exact Or.inr rfl
            · intro _
              simp [get_oauth_token, h, hl]
        | some tok =>
            constructor
            · rintro ⟨e, he⟩
              simp [get_oauth_token, h, hl] at he
            · rintro (hs | hn)
              · exact absurd h hs
              · exact absurd hn (by simp)
      · constructor
        · intro _
          exact Or.inl h
        · intro _
          simp [get_oauth_token, h]
    · intro tok h200 htok
      simp [get_oauth_token, h200, htok]
  · intro url credentials version authServer state hready
    cases hfind : required_credentials.find? (fun k => !acontains credentials k) with
    | some k => simp [client_init, hfind] at hready
    | none =>
        cases htok : get_oauth_token (authServer (oauth_post_body credentials)) with
        | error e => simp [client_init, hfind, htok] at hready
        | ok tok =>
            simp only [client_init, hfind, htok, InitOutcome.ready.injEq] at hready
            subst hready
            constructor
            · rfl
            · exact alookup_ainsert_self [] "Authorization" ("Bearer " ++ tok)

theorem get_oauth_token_iff_spec_witness :
    get_oauth_token { status := 200, body := [("access_token", "tok123")], text := "" }
        = Except.ok "tok123"
    ∧ ∃ state, client_init "example.landax.no"
          [("username", "u"), ("password", "p"), ("client_id", "c"), ("client_secret", "s")]
          "v20" (fun _ => { status := 200, body := [("access_token", "tok123")], text := "" })
          = InitOutcome.ready state
        ∧ alookup state.headers "Authorization" = some ("Bearer " ++ state.oauth_token) := by
  constructor
  · exact (get_oauth_token_iff_spec.1
      { status := 200, body := [("access_token", "tok123")], text := "" }).2 "tok123" rfl
      (by decide)
  · refine ⟨⟨"u", "p", "c", "s", "https://example.landax.no/",
        "https://example.landax.no/api/v20/",
        [("Authorization", "Bearer tok123")], "tok123"⟩, rfl, ?_⟩
    exact (get_oauth_token_iff_spec.2 "example.landax.no"
      [("username", "u"), ("password", "p"), ("client_id", "c"), ("client_secret", "s")]
      "v20" (fun _ => { status := 200, body := [("access_token", "tok123")], text := "" })
      _ rfl).2

/-- C7: a credentials dict missing one of the four required fields makes
the constructor return a missing-credential outcome (an error is only
logged, nothing raised), independently of the token endpoint — so no token
request is issued. -/
theorem client_init_missing_credential (url : String)
    (credentials : List (String × String)) (version : String)
    (h : ∃ k, k ∈ required_credentials ∧ acontains credentials k = false) :
    ∃ k, k ∈ required_credentials ∧ acontains credentials k = false
      ∧ ∀ authServer, client_init url credentials version authServer
          = InitOutcome.missingCredential k := by
  cases hfind : required_credentials.find? (fun k => !acontains credentials k) with
  | none =>
      exfalso
      obtain ⟨k, hmem, hnc⟩ := h
      have hcontra := List.find?_eq_none.mp hfind k hmem
      simp [hnc] at hcontra
  | some k =>
      refine ⟨k, List.mem_of_find?_eq_some hfind, ?_, ?_⟩
      · have hp := List.find?_some hfind
        simpa using hp
      · intro authServer
        simp [client_init, hfind]

theorem client_init_missing_credential_witness :
    ∃ k, ∀ authServer, client_init "example.landax.no" [("username", "u")] "v20" authServer
        = InitOutcome.missingCredential k := by
  obtain ⟨k, _, _, hall⟩ := client_init_missing_credential "example.landax.no"
    [("username", "u")] "v20" ⟨"password", by decide, by decide⟩
  exact ⟨k, hall⟩

theorem getLast?_cons_exists {γ : Type u} (y : γ) (ys : List γ) :
    ∃ z, (y :: ys).getLast? = some z := by
  induction ys generalizing y with
  | nil => exact ⟨y, rfl⟩
  | cons b bs ih =>
      rw [List.getLast?_cons_cons]
      exact ih b

theorem list_to_dict_go_lookup {μ : Type u} [DecidableEq μ] (metakey : String) :
    ∀ (list_in : List (List (String × μ))) (acc : List (μ × List (String × μ))),
      (∀ r ∈ list_in, (alookup r metakey).isSome = true) →
      ∃ d, list_to_dict_go metakey acc list_in = some d
        ∧ ∀ k, alookup d k
            = (lastWithKey list_in metakey k).elim (alookup acc k) some := by
  intro list_in
  induction list_in with
  | nil =>
      intro acc _
      exact ⟨acc, rfl, fun _ => rfl⟩
  | cons r rest ih =>
      intro acc h
      have hr : (alookup r metakey).isSome = true := h r (List.mem_cons_self r rest)
      cases hl : alookup r metakey with
      | none =>
          rw [hl] at hr
          simp at hr
      | some kr =>
          have hrest : ∀ q ∈ rest, (alookup q metakey).isSome = true :=
            fun q hq => h q (List.mem_cons_of_mem r hq)
          obtain ⟨d, hgo, hlook⟩ := ih (ainsert acc kr r) hrest
          refine ⟨d, ?_, ?_⟩
          · simp only [list_to_dict_go]
            rw [hl]
            exact hgo
          · intro k
            rw [hlook k]
            by_cases hk : kr = k
            · subst hk
              have hpr : decide (alookup r metakey = some kr) = true := by simp [hl]
              simp only [lastWithKey, List.filter_cons, hpr, if_true]
              cases hfs : rest.filter (fun record => decide (alookup record metakey = some kr)) with
              | nil =>
                  simp only [List.getLast?, Option.elim]
                  exact alookup_ainsert_self acc kr r
              | cons y ys =>
                  rw [List.getLast?_cons_cons]
                  obtain ⟨z, hz⟩ := getLast?_cons_exists y ys
                  rw [hz]
                  rfl
            · have hpr : decide (alookup r metakey = some k) = false := by
                simp [hl, hk]
              simp only [lastWithKey, List.filter_cons, hpr]
              rw [if_neg Bool.false_ne_true]
              rw [alookup_ainsert_ne acc kr k r (Ne.symm hk)]

/-- C8: `list_to_dict` (on records that all carry the key field) maps each
key value to the full record of its last occurrence in the input list —
last write wins on duplicates, with only a logged warning. -/
theorem list_to_dict_last_write_wins {μ : Type u} [DecidableEq μ]
    (list_in : List (List (String × μ))) (metakey : String)
    (h : ∀ r ∈ list_in, (alookup r metakey).isSome = true) :
    ∃ d, list_to_dict list_in metakey = some d
      ∧ ∀ k, alookup d k = lastWithKey list_in metakey k := by
  obtain ⟨d, hgo, hlook⟩ := list_to_dict_go_lookup metakey list_in [] h
  refine ⟨d, hgo, ?_⟩
  intro k
  rw [hlook k]
  cases hlast : lastWithKey list_in metakey k
  · rfl
  · rfl

theorem list_to_dict_last_write_wins_witness :
    ∃ d, list_to_dict [[("id", 1), ("v", 10)], [("id", 1), ("v", 20)]] "id" = some d
      ∧ alookup d 1 = some [("id", (1 : Nat)), ("v", 20)] := by
  obtain ⟨d, hd, hlook⟩ := list_to_dict_last_write_wins
    [[("id", (1 : Nat)), ("v", 10)], [("id", 1), ("v", 20)]] "id" (by decide)
  refine ⟨d, hd, ?_⟩
  rw [hlook 1]
  decide

/-- C9 (code-bug evidence): `upload_document_from_file` does raise a type
error on a non-`Path` argument and a not-found error on a missing file,
but on an existing file it passes `document_object` as
`upload_document`'s third positional argument `folder_id`, so the
caller's document object ends up as the `FolderId` value of an otherwise
empty options dict instead of being the document options. -/
theorem upload_document_from_file_misroutes_options :
    upload_document_from_file (FileArg.path true "report.txt" (0 : Nat))
        (some [("Number", JVal.str "42")])
      = Except.ok
          { filename := "report.txt", filedata := 0,
            document := [("FolderId", JVal.obj [("Number", JVal.str "42")])],
            documentLink := none }
    ∧ upload_document_from_file (FileArg.notPath : FileArg Nat) none
      = Except.error (PyError.typeError "file must be a pathlib.Path")
    ∧ upload_document_from_file (FileArg.path false "gone.txt" (0 : Nat)) none
      = Except.error (PyError.fileNotFound ("file does not exist: " ++ "gone.txt")) :=
  ⟨rfl, rfl, rfl⟩

end Pylandax
